import Mathlib

/- Shallow embedding of the BioScout Islamabad dual-fallback
retrieval-and-generation core (src/services/rag_service.py and
src/services/ai_service.py).

Python strings are modelled as Lean strings.  The Python string
operations the source uses (`in`, `split`, `strip`, `replace`, `lower`,
`startswith`, slicing) are given explicit executable models on lists of
characters; each model follows CPython semantics for the arguments the
source actually passes (in particular `split` is only ever called with a
non-empty separator, so the empty-separator guard below is never hit by
the embedded code).

The process-wide mutable flags (USE_FALLBACK_MODE in each service
module) are modelled by explicit state passing: each service entry point
takes the current flag and returns the new flag.  Remote collaborators
(OpenAI chat models, the vision endpoint, the knowledge-base search) are
modelled as explicit outcome parameters; reading the image file and
issuing the vision request are folded into a single remote-attempt
outcome, so `attempted` marks that control entered the guarded remote
section.  An uncaught Python exception is modelled as `Except.error ()`.
-/

/-- The ASCII whitespace characters stripped by Python str.strip(). -/
def pyWs (c : Char) : Bool :=
  c == ' ' || c == '\t' || c == '\n' || c == '\r' || c == '\x0b' || c == '\x0c'

/-- Python `pat in s` on character lists: pat occurs as a contiguous substring. -/
def lsubstr (pat : List Char) : List Char → Bool
  | [] => pat.isEmpty
  | c :: rest => pat.isPrefixOf (c :: rest) || lsubstr pat rest

/-- Index of the first occurrence of `sep` in `s` (s.length when absent). -/
def firstOccL (sep : List Char) : List Char → Nat
  | [] => 0
  | c :: rest => if sep.isPrefixOf (c :: rest) then 0 else firstOccL sep rest + 1

/-- Worker for Python str.split(sep): fuel-indexed so that the recursion is
structural; one unit of fuel is spent per consumed character, so
`fuel = s.length` always suffices. -/
def splitAuxF (sep : List Char) : Nat → List Char → List Char → List (List Char)
  | _, [], acc => [acc.reverse]
  | 0, s, acc => [acc.reverse ++ s]
  | fuel + 1, c :: rest, acc =>
    if sep.isPrefixOf (c :: rest) then
      acc.reverse :: splitAuxF sep fuel ((c :: rest).drop sep.length) []
    else
      splitAuxF sep fuel rest (c :: acc)

/-- Python str.split(sep) for a non-empty separator (the source never splits
on an empty separator; CPython raises ValueError there). -/
def lsplit (sep s : List Char) : List (List Char) :=
  if sep.isEmpty then [s] else splitAuxF sep s.length s []

/-- Python sep.join(parts) on character lists. -/
def joinWith (sep : List Char) : List (List Char) → List Char
  | [] => []
  | [x] => x
  | x :: y :: xs => x ++ sep ++ joinWith sep (y :: xs)

/-- Python str.strip() on character lists. -/
def stripL (s : List Char) : List Char :=
  ((s.dropWhile pyWs).reverse.dropWhile pyWs).reverse

/-- Python `pat in s`. -/
def pyIn (pat s : String) : Bool := lsubstr pat.data s.data

/-- Python str.lower() (the embedded strings are ASCII). -/
def pyLower (s : String) : String := String.mk (s.data.map Char.toLower)

/-- Python s.split(sep). -/
def pySplit (s sep : String) : List String := (lsplit sep.data s.data).map String.mk

/-- Python s.strip(). -/
def pyStrip (s : String) : String := String.mk (stripL s.data)

/-- Python s.replace(old, new), which equals new.join(s.split(old)) for a
non-empty `old` (the source only replaces the non-empty "- "). -/
def pyReplace (s old new : String) : String :=
  String.mk (joinWith new.data (lsplit old.data s.data))

/-- Python s.startswith(p). -/
def pyStartsWith (s p : String) : Bool := p.data.isPrefixOf s.data

/-- Python s[:n]. -/
def pyTake (s : String) (n : Nat) : String := String.mk (s.data.take n)

/-! ## Data model -/

/-- A knowledge-base document as consumed by the core (models.knowledge_base). -/
structure Doc where
  title : String
  source : String
  content : String
  deriving DecidableEq

/-- A stored observation record; every field is read defensively by the
source (dict.get with a default), so each is optional here.  Coordinates
are a list of rationals standing for the JSON number array. -/
structure Obs where
  id : Option String := none
  species_name : Option String := none
  location : Option String := none
  date_observed : Option String := none
  notes : Option String := none
  coordinates : Option (List ℚ) := none
  deriving DecidableEq

/-- A GeoJSON-like Feature as produced by format_observations. -/
structure Feature where
  geometry_type : String
  coordinates : List ℚ
  prop_id : String
  prop_species : String
  prop_date : String
  prop_location : String
  prop_notes : String
  deriving DecidableEq

structure IdentSpecies where
  name : String
  confidence : ℚ
  deriving DecidableEq

structure IdentificationResult where
  success : Bool
  result : String
  species : Option IdentSpecies
  deriving DecidableEq

/-! ## rag_service.py -/

/-- Known locations list of extract_key_terms (rag_service.py lines 55-56). -/
def locations_vocab : List String :=
  ["margalla hills", "rawal lake", "shakarparian", "daman-e-koh",
   "pir sohawa", "trail", "islamabad"]

/-- Animal-category list of extract_key_terms (rag_service.py lines 59-60). -/
def categories_vocab : List String :=
  ["bird", "birds", "mammal", "mammals", "reptile", "reptiles",
   "amphibian", "amphibians", "fish"]

/-- rag_service.extract_key_terms: both scan loops append matching vocabulary
entries in list order, which is filter on each list, locations first. -/
def extract_key_terms (query : String) : List String :=
  let query_lower := pyLower query
  locations_vocab.filter (fun loc => pyIn loc query_lower) ++
    categories_vocab.filter (fun cat => pyIn cat query_lower)

/-- rag_service.build_context (lines 77-91). -/
def build_context (knowledge_docs : List Doc) (observations : List Obs) : String :=
  let c1 : String := "Knowledge Base Information:\n"
  let c2 := (knowledge_docs.take 3).foldl
    (fun acc doc =>
      acc ++ "- " ++ doc.title ++ " (" ++ doc.source ++ "): " ++
        pyTake doc.content 300 ++ "...\n\n") c1
  let c3 := c2 ++ "\nRecent Observations:\n"
  (observations.take 5).foldl
    (fun acc obs =>
      acc ++ "- " ++ obs.species_name.getD "Unknown species" ++ " observed at " ++
        obs.location.getD "Unknown location" ++ " on " ++
        obs.date_observed.getD "Unknown date" ++ "\n") c3

/-- The context re-parsing step of generate_fallback_response (lines 102-109):
for each line starting with "- " and containing "observed at", recover a
species entry and a location entry in parallel lists. -/
def parseContext (context : String) : List String × List String :=
  let lines := pySplit context "\n"
  let good := lines.filter (fun line => pyStartsWith line "- " && pyIn "observed at" line)
  (good.map (fun line =>
     pyStrip (pyReplace ((pySplit line "observed at").headD "") "- " "")),
   good.map (fun line =>
     pyStrip ((pySplit ((pySplit line "observed at").getD 1 "") "on").headD "")))

/-- Python ", ".join(l). -/
def joinComma (l : List String) : String :=
  String.mk (joinWith (", ").data (l.map String.data))

/-- The enumerate-and-filter pattern of the margalla / rawal branches
(lines 121-123 and 132-134): species paired with a location whose lowered
text contains `needle`, guarded by an index bound check. -/
def pairedSpecies (needle : String) (locs species : List String) : List String :=
  locs.enum.filterMap (fun p =>
    if pyIn needle (pyLower p.2) && decide (p.1 < species.length) then
      species.get? p.1
    else none)

/-- rag_service.generate_fallback_response (lines 93-145), with the global
flag assignment on entry reflected in generate_response below. -/
def generate_fallback_response (query context : String) : String :=
  let query_lower := pyLower query
  let parsed := parseContext context
  let species_mentioned := parsed.1
  let locations_mentioned := parsed.2
  if pyIn "bird" query_lower || pyIn "birds" query_lower then
    let bird_species := species_mentioned.filter (fun s =>
      pyIn "bird" (pyLower s) || pyIn "duck" (pyLower s) || pyIn "eagle" (pyLower s))
    if bird_species.isEmpty then
      "I don't have specific information about birds in that area from our records."
    else
      "Based on our records, the following bird species have been observed in Islamabad: " ++
        joinComma bird_species ++ "."
  else if pyIn "margalla" query_lower then
    let margalla_species := pairedSpecies "margalla" locations_mentioned species_mentioned
    if margalla_species.isEmpty then
      "Margalla Hills is known for its biodiversity, but I don't have specific observations in our current records."
    else
      "In Margalla Hills, these species have been recorded: " ++ joinComma margalla_species ++ "."
  else if pyIn "rawal" query_lower || pyIn "lake" query_lower then
    let lake_species := pairedSpecies "rawal" locations_mentioned species_mentioned
    if lake_species.isEmpty then
      "Rawal Lake is home to various species, but I don't have specific observations in our current records."
    else
      "At Rawal Lake, these species have been observed: " ++ joinComma lake_species ++ "."
  else if species_mentioned.isEmpty then
    "I don't have specific information about that in our current records. You can try asking about birds, mammals, or specific locations like Margalla Hills or Rawal Lake."
  else
    "Based on our records, these species have been observed in Islamabad: " ++
      joinComma (species_mentioned.take 3) ++ "."

instance exceptDecEq {ε α : Type} [DecidableEq ε] [DecidableEq α] : DecidableEq (Except ε α) :=
  fun x y =>
  match x, y with
  | Except.ok a, Except.ok b =>
    if h : a = b then isTrue (by rw [h]) else isFalse (fun he => h (Except.ok.inj he))
  | Except.error a, Except.error b =>
    if h : a = b then isTrue (by rw [h]) else isFalse (fun he => h (Except.error.inj he))
  | Except.ok _, Except.error _ => isFalse (fun he => Except.noConfusion he)
  | Except.error _, Except.ok _ => isFalse (fun he => Except.noConfusion he)

/-- Result of one generate_response call: the new value of the module-wide
USE_FALLBACK_MODE flag, whether the guarded remote section was entered, and
the returned text (`Except.error ()` models an uncaught exception, which
happens exactly when the credential is Python None, since evaluating
`"None" in api_key` raises TypeError before any try block). -/
structure GenResult where
  newFlag : Bool
  attempted : Bool
  output : Except Unit String
  deriving DecidableEq

/-- rag_service.generate_response (lines 147-210).  `primary` and
`secondary` are the outcomes of the two chat-model calls. -/
def generate_response (useFallbackMode : Bool) (apiKey : Option String)
    (query context : String) (primary secondary : Except Unit String) : GenResult :=
  if useFallbackMode then
    ⟨true, false, Except.ok (generate_fallback_response query context)⟩
  else
    match apiKey with
    | none => ⟨false, false, Except.error ()⟩
    | some key =>
      if pyIn "None" key || key == "" || decide (key.length < 20) then
        ⟨true, false, Except.ok (generate_fallback_response query context)⟩
      else
        match primary with
        | Except.ok content => ⟨false, true, Except.ok content⟩
        | Except.error _ =>
          match secondary with
          | Except.ok content => ⟨false, true, Except.ok content⟩
          | Except.error _ => ⟨true, true, Except.ok (generate_fallback_response query context)⟩

/-- The Feature built for one observation with truthy coordinates
(rag_service.format_observations, lines 218-231). -/
def featureOf (obs : Obs) (coords : List ℚ) : Feature :=
  ⟨"Point", coords, obs.id.getD "", obs.species_name.getD "Unknown",
   obs.date_observed.getD "", obs.location.getD "", obs.notes.getD ""⟩

/-- rag_service.format_observations (lines 212-234).  `formattingFault`
models the environment of the per-item try/except: a faulted item is
dropped and the loop continues. -/
def format_observations (formattingFault : Obs → Bool) (observations : List Obs) : List Feature :=
  observations.foldl (fun acc obs =>
    match obs.coordinates with
    | some coords =>
      if coords.isEmpty then acc
      else if formattingFault obs then acc
      else acc ++ [featureOf obs coords]
    | none => acc) []

structure QueryResult where
  response : String
  knowledge_sources : List String
  observation_count : Nat
  observations : List Feature
  deriving DecidableEq

/-- The catch-all answer of process_query (lines 44-49). -/
def error_query_result : QueryResult :=
  ⟨"I'm sorry, there was an error processing your query. Please try again.", [], 0, []⟩

/-- rag_service.process_query (lines 12-49).  The whole body runs inside a
try/except, so every fault - a collaborator failure (`search` erroring) or
an exception escaping generate_response - yields error_query_result. -/
def process_query (useFallbackMode : Bool) (apiKey : Option String) (query : String)
    (search : Except Unit (List Doc)) (findBySpecies findByLocation : String → List Obs)
    (primary secondary : Except Unit String) (formattingFault : Obs → Bool) :
    Bool × QueryResult :=
  match search with
  | Except.error _ => (useFallbackMode, error_query_result)
  | Except.ok knowledge_results =>
    let key_terms := extract_key_terms query
    let observation_results := key_terms.foldl
      (fun acc term => acc ++ findBySpecies term ++ findByLocation term) []
    let context := build_context knowledge_results observation_results
    let gen := generate_response useFallbackMode apiKey query context primary secondary
    match gen.output with
    | Except.error _ => (gen.newFlag, error_query_result)
    | Except.ok response =>
      (gen.newFlag,
       ⟨response, knowledge_results.map (fun d => d.title), observation_results.length,
        format_observations formattingFault observation_results⟩)

/-! ## ai_service.py -/

/-- ai_service.get_confidence_from_text (lines 166-174). -/
def get_confidence_from_text (text : String) : ℚ :=
  if pyIn "high confidence" (pyLower text) then 9/10
  else if pyIn "medium confidence" (pyLower text) then 7/10
  else if pyIn "low confidence" (pyLower text) then 1/2
  else 3/5

/-- ai_service.extract_species_from_result (lines 154-164). -/
def extract_species_from_result (result_text : String) : Option IdentSpecies :=
  if pyIn "identified as" (pyLower result_text) then
    let species_part := pyStrip ((pySplit (pyLower result_text) "identified as").getD 1 "")
    let species_name := pyStrip ((pySplit species_part ".").headD "")
    some ⟨species_name, get_confidence_from_text result_text⟩
  else
    none

structure WildlifeEntry where
  kw : String
  name : String
  scientific : String
  category : String
  deriving DecidableEq

/-- The common_wildlife table (ai_service.py lines 94-130) in Python dict
insertion order. -/
def common_wildlife : List WildlifeEntry :=
  [⟨"leopard", "Common Leopard", "Panthera pardus", "Mammal"⟩,
   ⟨"deer", "Barking Deer", "Muntiacus muntjak", "Mammal"⟩,
   ⟨"fox", "Red Fox", "Vulpes vulpes", "Mammal"⟩,
   ⟨"bird", "Himalayan Griffon", "Gyps himalayensis", "Bird"⟩,
   ⟨"eagle", "Steppe Eagle", "Aquila nipalensis", "Bird"⟩,
   ⟨"duck", "Mallard Duck", "Anas platyrhynchos", "Bird"⟩,
   ⟨"snake", "Indian Cobra", "Naja naja", "Reptile"⟩]

/-- os.path.basename on a POSIX path: the text after the last "/". -/
def pyBasename (p : String) : String := (pySplit p "/").getLastD p

/-- The root part of os.path.splitext: drop the extension starting at the
last ".", unless every character before that dot is itself a dot. -/
def splitextRootL (cs : List Char) : List Char :=
  match cs.reverse.findIdx? (fun c => c == '.') with
  | none => cs
  | some k =>
    if (cs.take (cs.length - 1 - k)).any (fun c => c != '.') then
      cs.take (cs.length - 1 - k)
    else cs

/-- The filename normalisation of generate_fallback_identification
(lines 82-91): lowercased basename, text after the first "_" when one is
present (str.split with maxsplit 1), extension removed. -/
def processedFilename (image_path : String) : String :=
  let f1 := pyLower (pyBasename image_path)
  let f2 := if pyIn "_" f1 then String.mk (f1.data.drop (firstOccL ['_'] f1.data + 1)) else f1
  String.mk (splitextRootL f2.data)

/-- ai_service.generate_fallback_identification (lines 79-152). -/
def generate_fallback_identification (image_path : String) : IdentificationResult :=
  let filename := processedFilename image_path
  match common_wildlife.find? (fun entry => pyIn entry.kw filename) with
  | some info =>
    ⟨true,
     "This appears to be a " ++ info.name ++ " (" ++ info.scientific ++
       "), which is a " ++ info.category ++
       " found in Islamabad, Pakistan. (Note: This is an offline identification)",
     some ⟨info.name, 7/10⟩⟩
  | none =>
    ⟨true,
     "This appears to be a wildlife species from Islamabad, Pakistan. For accurate identification, please try again when the AI service is available. (Note: This is an offline identification)",
     some ⟨"Unknown Wildlife Species", 1/2⟩⟩

/-- Outcome of the guarded remote-identification section of
get_species_from_image (reading the image file, posting the request and
decoding the payload): an exception anywhere in it, a decoded payload
without a choices field, or a content string. -/
inductive VisionOutcome
  | err
  | noChoices
  | ok (content : String)

structure AiResult where
  newFlag : Bool
  attempted : Bool
  output : Except Unit IdentificationResult
  deriving DecidableEq

/-- ai_service.get_species_from_image (lines 10-77).  With a Python-None
credential the check `"None" in api_key` on line 21 raises TypeError
outside any try block, which propagates to the caller. -/
def get_species_from_image (useFallbackMode : Bool) (apiKey : Option String)
    (image_path : String) (remote : VisionOutcome) : AiResult :=
  if useFallbackMode then
    ⟨useFallbackMode, false, Except.ok (generate_fallback_identification image_path)⟩
  else
    match apiKey with
    | none => ⟨false, false, Except.error ()⟩
    | some key =>
      if pyIn "None" key || key == "" || decide (key.length < 20) then
        ⟨true, false, Except.ok (generate_fallback_identification image_path)⟩
      else
        match remote with
        | VisionOutcome.err => ⟨true, true, Except.ok (generate_fallback_identification image_path)⟩
        | VisionOutcome.noChoices => ⟨true, true, Except.ok (generate_fallback_identification image_path)⟩
        | VisionOutcome.ok content =>
          ⟨false, true, Except.ok ⟨true, content, extract_species_from_result content⟩⟩

/-! ## Claim-side definitions (stated from the specification wording, to be
compared with the embedded source) -/

/-- The document line of the context template as the spec words it. -/
def specDocLine (d : Doc) : String :=
  "- " ++ d.title ++ " (" ++ d.source ++ "): " ++ pyTake d.content 300 ++ "...\n\n"

/-- The observation line of the context template as the spec words it. -/
def specObsLine (o : Obs) : String :=
  "- " ++ o.species_name.getD "Unknown species" ++ " observed at " ++
    o.location.getD "Unknown location" ++ " on " ++ o.date_observed.getD "Unknown date" ++ "\n"

/-- The credential validity precheck exactly as the claim states it:
non-empty, not the literal "None" placeholder, and length at least 20. -/
def claimedCredentialPrecheck (key : String) : Bool :=
  key != "" && key != "None" && decide (20 ≤ key.length)

/-- The amended credential precheck: non-empty, does not contain "None"
as a substring, and length at least 20 (the source tests substring
containment, not equality with the placeholder). -/
def credentialPrecheck (key : String) : Bool :=
  key != "" && !(pyIn "None" key) && decide (20 ≤ key.length)

/-- Modelled from the claim wording for extract_species_from_result: the
original-case text following the first case-insensitive occurrence of
"identified as", up to the next period, stripped. -/
def claimedSpeciesName (t : String) : String :=
  let low := (pyLower t).data
  let seg := t.data.drop (firstOccL ("identified as").data low + ("identified as").data.length)
  pyStrip (String.mk (seg.take (firstOccL (".").data seg)))

/-- The amended species-name extraction: the lowercased text between the
first occurrence of "identified as" and the next occurrence of
"identified as" (or the end), stripped, truncated at its first period,
and stripped again - which is what the split pipeline of the source
computes. -/
def amendedSpeciesName (t : String) : String :=
  let low := (pyLower t).data
  let sep := ("identified as").data
  let rest := low.drop (firstOccL sep low + sep.length)
  let part := stripL (rest.take (firstOccL sep rest))
  String.mk (stripL (part.take (firstOccL (".").data part)))

/-- Modelled from the claim wording for the fallback re-parse: the text
strictly before the first occurrence of the substring "on" in the segment
after "observed at", stripped. -/
def locBeforeOn (location date : String) : String :=
  let seg := (" " ++ location ++ " on " ++ date).data
  String.mk (stripL (seg.take (firstOccL ("on").data seg)))

/-- Cleanliness of a rendered species name needed for the round-trip: no
newline, no occurrence of the parse delimiters "observed at" or "- ", no
trailing "-" (which would fuse with the following space into "- "), and
already stripped. -/
def cleanSpeciesB (s : List Char) : Bool :=
  s.all (fun c => c != '\n') && !(lsubstr ("observed at").data s) &&
    !(lsubstr ("- ").data s) && (stripL s == s) && (s.getLastD 'a' != '-')

/-- Cleanliness of a rendered location or date: no newline and no
occurrence of the delimiter "observed at". -/
def cleanFieldB (s : List Char) : Bool :=
  s.all (fun c => c != '\n') && !(lsubstr ("observed at").data s)

/-- Cleanliness of one observation's rendered fields. -/
def cleanObsB (o : Obs) : Bool :=
  cleanSpeciesB (o.species_name.getD "Unknown species").data &&
    cleanFieldB (o.location.getD "Unknown location").data &&
    cleanFieldB (o.date_observed.getD "Unknown date").data

/-- Python truthiness of the coordinates field: present and non-empty. -/
def truthyCoords (o : Obs) : Bool :=
  match o.coordinates with
  | some coords => !coords.isEmpty
  | none => false


/-- The rendered species text of one observation line (defaulted). -/
def obsSpeciesData (o : Obs) : List Char := (o.species_name.getD "Unknown species").data

/-- The rendered location text of one observation line (defaulted). -/
def obsLocData (o : Obs) : List Char := (o.location.getD "Unknown location").data

/-- The rendered date text of one observation line (defaulted). -/
def obsDateData (o : Obs) : List Char := (o.date_observed.getD "Unknown date").data

/-- The characters of one observation line of the context, without the
trailing newline. -/
def obsBodyData (o : Obs) : List Char :=
  ("- ").data ++ obsSpeciesData o ++ (" observed at ").data ++ obsLocData o ++
    (" on ").data ++ obsDateData o

/-! ## Basic lemmas about the character-list string models -/

theorem isPfxOf_iff (l₁ l₂ : List Char) : l₁.isPrefixOf l₂ = true ↔ ∃ t, l₂ = l₁ ++ t := by
  induction l₁ generalizing l₂ with
  | nil => simp [List.isPrefixOf]
  | cons a as ih =>
    cases l₂ with
    | nil => simp [List.isPrefixOf]
    | cons b bs =>
      simp only [List.isPrefixOf, Bool.and_eq_true, beq_iff_eq, ih, List.cons_append]
      constructor
      · rintro ⟨rfl, t, rfl⟩
        exact ⟨t, rfl⟩
      · rintro ⟨t, he⟩
        injection he with h1 h2
        exact ⟨h1.symm, t, h2⟩

theorem isPfxOf_length_le {l₁ l₂ : List Char} (h : l₁.isPrefixOf l₂ = true) :
    l₁.length ≤ l₂.length := by
  obtain ⟨t, rfl⟩ := (isPfxOf_iff _ _).mp h
  simp

theorem isPfxOf_refl_append (l t : List Char) : l.isPrefixOf (l ++ t) = true :=
  (isPfxOf_iff _ _).mpr ⟨t, rfl⟩

theorem isPfxOf_of_append_le {pat : List Char} :
    ∀ {x : List Char} (y : List Char), pat.isPrefixOf (x ++ y) = true →
      pat.length ≤ x.length → pat.isPrefixOf x = true := by
  induction pat with
  | nil => intro x y _ _; simp [List.isPrefixOf]
  | cons p ps ih =>
    intro x y h hl
    cases x with
    | nil => simp at hl
    | cons a as =>
      simp only [List.cons_append, List.isPrefixOf, Bool.and_eq_true] at h ⊢
      refine ⟨h.1, ih y h.2 ?_⟩
      simpa using Nat.succ_le_succ_iff.mp (by simpa using hl)

theorem isPfxOf_append_split {pat : List Char} :
    ∀ {x : List Char} (y : List Char), pat.isPrefixOf (x ++ y) = true →
      x.length < pat.length →
      x ++ pat.drop x.length = pat ∧ (pat.drop x.length).isPrefixOf y = true := by
  intro x
  induction x generalizing pat with
  | nil => intro y h _; simpa using h
  | cons a as ih =>
    intro y h hl
    cases pat with
    | nil => simp at hl
    | cons p ps =>
      simp only [List.cons_append, List.isPrefixOf, Bool.and_eq_true, beq_iff_eq] at h
      obtain ⟨rfl, h2⟩ := h
      have hl' : as.length < ps.length := by simpa using hl
      obtain ⟨e1, e2⟩ := ih y h2 hl'
      exact ⟨by simpa using e1, e2⟩

theorem lsubstr_of_pfx_drop {pat s : List Char} (i : Nat)
    (h : pat.isPrefixOf (s.drop i) = true) : lsubstr pat s = true := by
  induction s generalizing i with
  | nil =>
    cases pat with
    | nil => rfl
    | cons p ps => simp [List.isPrefixOf] at h
  | cons c rest ih =>
    cases i with
    | zero =>
      simp only [List.drop_zero] at h
      simp only [lsubstr, h, Bool.true_or]
    | succ n =>
      have hr := ih n (by simpa using h)
      simp only [lsubstr, hr, Bool.or_true]

theorem no_pfx_of_lsubstr_false {pat s : List Char} (h : lsubstr pat s = false) :
    ∀ i, pat.isPrefixOf (s.drop i) = false := by
  intro i
  cases hb : pat.isPrefixOf (s.drop i) with
  | false => rfl
  | true =>
    rw [lsubstr_of_pfx_drop i hb] at h
    exact absurd h (by simp)

theorem lsubstr_false_of_no_pfx {pat s : List Char}
    (h : ∀ i, pat.isPrefixOf (s.drop i) = false) : lsubstr pat s = false := by
  induction s with
  | nil =>
    have h0 := h 0
    cases pat with
    | nil => simp [List.isPrefixOf] at h0
    | cons p ps => rfl
  | cons c rest ih =>
    have h0 := h 0
    simp only [List.drop_zero] at h0
    have hr := ih (fun i => by simpa using h (i + 1))
    simp [lsubstr, h0, hr]

theorem lsubstr_append_mid (pat x y : List Char) : lsubstr pat (x ++ pat ++ y) = true := by
  induction x with
  | nil =>
    cases pat with
    | nil =>
      cases y with
      | nil => rfl
      | cons b bs => simp [lsubstr, List.isPrefixOf]
    | cons p ps =>
      simp only [List.nil_append, List.cons_append, lsubstr]
      have : (p :: ps).isPrefixOf ((p :: ps) ++ y) = true := isPfxOf_refl_append _ _
      simp only [List.cons_append] at this
      simp [this]
  | cons a as ih =>
    show (pat.isPrefixOf (a :: (as ++ pat ++ y)) || lsubstr pat (as ++ pat ++ y)) = true
    rw [ih, Bool.or_true]

theorem tdrop_len_append (x y : List Char) : (x ++ y).drop x.length = y := by
  induction x with
  | nil => simp
  | cons a as ih => simp [ih]

theorem ttake_len_append (x y : List Char) : (x ++ y).take x.length = x := by
  induction x with
  | nil => simp
  | cons a as ih => simp [ih]

theorem tdrop_append_le {n : Nat} (x y : List Char) (h : n ≤ x.length) :
    (x ++ y).drop n = x.drop n ++ y := by
  induction x generalizing n with
  | nil =>
    have : n = 0 := Nat.le_zero.mp (by simpa using h)
    simp [this]
  | cons a as ih =>
    cases n with
    | zero => simp
    | succ m =>
      have hm : m ≤ as.length := by simpa using h
      simpa using ih hm

theorem tdrop_add (x y : List Char) (k : Nat) : (x ++ y).drop (x.length + k) = y.drop k := by
  induction x with
  | nil => simp
  | cons a as ih =>
    show List.drop (as.length + 1 + k) (a :: (as ++ y)) = y.drop k
    have harith : as.length + 1 + k = (as.length + k) + 1 := by omega
    rw [harith, List.drop_succ_cons]
    exact ih

/-! ## Lemmas about lsplit and firstOccL -/

theorem splitAuxF_nil (sep : List Char) (fuel : Nat) (acc : List Char) :
    splitAuxF sep fuel [] acc = [acc.reverse] := by
  cases fuel <;> rfl

theorem sep_isEmpty_false {sep : List Char} (hsep : sep ≠ []) : sep.isEmpty = false := by
  cases sep with
  | nil => exact absurd rfl hsep
  | cons a as => rfl

theorem sep_length_pos {sep : List Char} (hsep : sep ≠ []) : 1 ≤ sep.length := by
  cases sep with
  | nil => exact absurd rfl hsep
  | cons a as => simp

theorem splitAuxF_fuel {sep : List Char} (hsep : sep ≠ []) :
    ∀ (f₁ : Nat) {f₂ : Nat} {s acc : List Char}, s.length ≤ f₁ → s.length ≤ f₂ →
      splitAuxF sep f₁ s acc = splitAuxF sep f₂ s acc := by
  intro f₁
  induction f₁ with
  | zero =>
    intro f₂ s acc h1 _
    have : s = [] := List.eq_nil_of_length_eq_zero (Nat.le_zero.mp h1)
    subst this
    rw [splitAuxF_nil, splitAuxF_nil]
  | succ f ih =>
    intro f₂ s acc h1 h2
    cases s with
    | nil => rw [splitAuxF_nil, splitAuxF_nil]
    | cons c rest =>
      cases f₂ with
      | zero => simp at h2
      | succ g =>
        have hsl : 1 ≤ sep.length := sep_length_pos hsep
        simp only [List.length_cons] at h1 h2
        show splitAuxF sep (f + 1) (c :: rest) acc = splitAuxF sep (g + 1) (c :: rest) acc
        by_cases hp : sep.isPrefixOf (c :: rest) = true
        · simp only [splitAuxF]
          rw [if_pos hp, if_pos hp]
          have hlen : ((c :: rest).drop sep.length).length ≤ f := by
            simp only [List.length_drop, List.length_cons]
            omega
          have hlen2 : ((c :: rest).drop sep.length).length ≤ g := by
            simp only [List.length_drop, List.length_cons]
            omega
          rw [ih hlen hlen2]
        · simp only [splitAuxF]
          rw [if_neg hp, if_neg hp]
          exact ih (by omega) (by omega)

theorem lsplit_eq_splitAuxF {sep s : List Char} (hsep : sep ≠ []) :
    lsplit sep s = splitAuxF sep s.length s [] := by
  unfold lsplit
  simp [sep_isEmpty_false hsep]

theorem lsplit_nil (sep : List Char) : lsplit sep [] = [[]] := by
  unfold lsplit
  by_cases h : sep.isEmpty = true
  · simp [h]
  · simp only [h, if_false]
    exact splitAuxF_nil sep 0 []

theorem lsubstr_cons_split {sep : List Char} {c : Char} {rest : List Char} :
    lsubstr sep (c :: rest) = (sep.isPrefixOf (c :: rest) || lsubstr sep rest) := rfl

theorem splitAuxF_not_contains {sep : List Char} (_hsep : sep ≠ []) :
    ∀ {s acc : List Char} {fuel : Nat}, s.length ≤ fuel → lsubstr sep s = false →
      splitAuxF sep fuel s acc = [acc.reverse ++ s] := by
  intro s
  induction s with
  | nil =>
    intro acc fuel _ _
    rw [splitAuxF_nil]
    simp
  | cons c rest ih =>
    intro acc fuel hf hsub
    cases fuel with
    | zero => simp at hf
    | succ f =>
      rw [lsubstr_cons_split] at hsub
      have hp : sep.isPrefixOf (c :: rest) = false := by
        cases hb : sep.isPrefixOf (c :: rest)
        · rfl
        · rw [hb] at hsub; simp at hsub
      have hr : lsubstr sep rest = false := by
        cases hb : lsubstr sep rest
        · rfl
        · rw [hb] at hsub; simp at hsub
      simp only [List.length_cons] at hf
      show splitAuxF sep (f + 1) (c :: rest) acc = [acc.reverse ++ c :: rest]
      simp only [splitAuxF]
      rw [if_neg (by simp [hp])]
      rw [ih (by omega) hr]
      simp

theorem lsplit_not_contains {sep s : List Char} (hsep : sep ≠ [])
    (h : lsubstr sep s = false) : lsplit sep s = [s] := by
  rw [lsplit_eq_splitAuxF hsep, splitAuxF_not_contains hsep (Nat.le_refl _) h]
  simp

theorem splitAuxF_contains {sep : List Char} (hsep : sep ≠ []) :
    ∀ {s acc : List Char} {fuel : Nat}, s.length ≤ fuel → lsubstr sep s = true →
      splitAuxF sep fuel s acc =
        (acc.reverse ++ s.take (firstOccL sep s)) ::
          lsplit sep (s.drop (firstOccL sep s + sep.length)) := by
  intro s
  induction s with
  | nil =>
    intro acc fuel _ hsub
    have hemp : sep.isEmpty = true := hsub
    rw [sep_isEmpty_false hsep] at hemp
    simp at hemp
  | cons c rest ih =>
    intro acc fuel hf hsub
    cases fuel with
    | zero => simp at hf
    | succ f =>
      have hsl : 1 ≤ sep.length := sep_length_pos hsep
      simp only [List.length_cons] at hf
      show splitAuxF sep (f + 1) (c :: rest) acc = _
      by_cases hp : sep.isPrefixOf (c :: rest) = true
      · simp only [splitAuxF]
        rw [if_pos hp]
        have hfo : firstOccL sep (c :: rest) = 0 := by
          simp [firstOccL, hp]
        rw [hfo]
        simp only [List.take_zero, List.append_nil, Nat.zero_add]
        congr 1
        rw [lsplit_eq_splitAuxF hsep]
        apply splitAuxF_fuel hsep
        · simp only [List.length_drop, List.length_cons]
          omega
        · exact Nat.le_refl _
      · have hp' : sep.isPrefixOf (c :: rest) = false := by
          cases hb : sep.isPrefixOf (c :: rest)
          · rfl
          · exact absurd hb hp
        simp only [splitAuxF]
        rw [if_neg hp]
        rw [lsubstr_cons_split, hp'] at hsub
        have hsub' : lsubstr sep rest = true := by simpa using hsub
        rw [ih (by omega) hsub']
        have hfo : firstOccL sep (c :: rest) = firstOccL sep rest + 1 := by
          simp [firstOccL, hp']
        rw [hfo]
        have htake : (c :: rest).take (firstOccL sep rest + 1) =
            c :: rest.take (firstOccL sep rest) := by
          simp
        have hdrop : (c :: rest).drop (firstOccL sep rest + 1 + sep.length) =
            rest.drop (firstOccL sep rest + sep.length) := by
          have harith : firstOccL sep rest + 1 + sep.length =
              (firstOccL sep rest + sep.length) + 1 := by
            omega
          rw [harith, List.drop_succ_cons]
        rw [htake, hdrop]
        simp

theorem lsplit_contains {sep s : List Char} (hsep : sep ≠ []) (h : lsubstr sep s = true) :
    lsplit sep s =
      s.take (firstOccL sep s) :: lsplit sep (s.drop (firstOccL sep s + sep.length)) := by
  rw [lsplit_eq_splitAuxF hsep, splitAuxF_contains hsep (Nat.le_refl _) h]
  simp

theorem firstOccL_of_not_contains {sep s : List Char} (h : lsubstr sep s = false) :
    firstOccL sep s = s.length := by
  induction s with
  | nil => rfl
  | cons c rest ih =>
    rw [lsubstr_cons_split] at h
    have hp : sep.isPrefixOf (c :: rest) = false := by
      cases hb : sep.isPrefixOf (c :: rest)
      · rfl
      · rw [hb] at h; simp at h
    have hr : lsubstr sep rest = false := by
      cases hb : lsubstr sep rest
      · rfl
      · rw [hb] at h; simp at h
    simp [firstOccL, hp, ih hr]

theorem lsplit_headD {sep s : List Char} (hsep : sep ≠ []) (d : List Char) :
    (lsplit sep s).headD d = s.take (firstOccL sep s) := by
  cases hc : lsubstr sep s with
  | false =>
    rw [lsplit_not_contains hsep hc, firstOccL_of_not_contains hc]
    simp
  | true =>
    rw [lsplit_contains hsep hc]
    rfl

theorem firstOccL_append_sep {sep b : List Char} (hsep : sep ≠ []) :
    ∀ (a : List Char), (∀ i, i < a.length → sep.isPrefixOf ((a ++ sep ++ b).drop i) = false) →
      firstOccL sep (a ++ sep ++ b) = a.length := by
  intro a
  induction a with
  | nil =>
    intro _
    cases hs : sep with
    | nil => exact absurd hs hsep
    | cons s ss =>
      have hpr : (s :: ss).isPrefixOf ((s :: ss) ++ b) = true := isPfxOf_refl_append _ _
      show firstOccL (s :: ss) ([] ++ (s :: ss) ++ b) = 0
      simp only [List.nil_append, List.cons_append] at hpr ⊢
      simp [firstOccL, hpr]
  | cons x a' ih =>
    intro h
    have h0 := h 0 (by simp)
    simp only [List.cons_append, List.drop_zero] at h0
    have hrest : ∀ i, i < a'.length → sep.isPrefixOf ((a' ++ sep ++ b).drop i) = false := by
      intro i hi
      have := h (i + 1) (by simpa using Nat.succ_lt_succ hi)
      simpa using this
    show firstOccL sep (x :: (a' ++ sep ++ b)) = a'.length + 1
    have hstep : firstOccL sep (x :: (a' ++ sep ++ b)) =
        if sep.isPrefixOf (x :: (a' ++ sep ++ b)) then 0
        else firstOccL sep (a' ++ sep ++ b) + 1 := rfl
    rw [hstep, if_neg (fun hh => by rw [hh] at h0; exact Bool.noConfusion h0), ih hrest]

theorem lsplit_append_at {sep b : List Char} (hsep : sep ≠ []) (a : List Char)
    (h : ∀ i, i < a.length → sep.isPrefixOf ((a ++ sep ++ b).drop i) = false) :
    lsplit sep (a ++ sep ++ b) = a :: lsplit sep b := by
  have hc : lsubstr sep (a ++ sep ++ b) = true := lsubstr_append_mid sep a b
  rw [lsplit_contains hsep hc, firstOccL_append_sep hsep a h]
  congr 1
  · rw [List.append_assoc]
    exact ttake_len_append a (sep ++ b)
  · have hlen : a.length + sep.length = (a ++ sep).length := (List.length_append a sep).symm
    rw [hlen]
    exact congrArg (lsplit sep) (tdrop_len_append (a ++ sep) b)

theorem firstOccL_char {c : Char} : ∀ {x : List Char}, c ∉ x →
    ∀ (y : List Char), firstOccL [c] (x ++ c :: y) = x.length := by
  intro x
  induction x with
  | nil =>
    intro _ y
    have hpr : ([c]).isPrefixOf (c :: y) = true := by
      simp [List.isPrefixOf]
    simp [firstOccL, hpr]
  | cons d x' ih =>
    intro h y
    have hdc : (c == d) = false := by
      have : c ≠ d := fun he => h (by simp [he])
      simpa using this
    have hpr : ([c]).isPrefixOf (d :: (x' ++ c :: y)) = false := by
      simp [List.isPrefixOf, hdc]
    have hx' : c ∉ x' := fun hm => h (by simp [hm])
    show firstOccL [c] (d :: (x' ++ c :: y)) = x'.length + 1
    simp [firstOccL, hpr, ih hx' y]

theorem lsplit_char {c : Char} {x y : List Char} (h : c ∉ x) :
    lsplit [c] (x ++ c :: y) = x :: lsplit [c] y := by
  have hc : lsubstr [c] (x ++ c :: y) = true := by
    have := lsubstr_append_mid [c] x y
    simpa using this
  rw [lsplit_contains (by simp) hc, firstOccL_char h y]
  congr 1
  · have : x ++ c :: y = x ++ ([c] ++ y) := by simp
    rw [this]
    exact ttake_len_append x ([c] ++ y)
  · have harith : x.length + ([c] : List Char).length = x.length + 1 := rfl
    rw [harith]
    have : (x ++ c :: y).drop (x.length + 1) = (c :: y).drop 1 := tdrop_add x (c :: y) 1
    rw [this]
    simp

theorem lsplit_char_flatten {c : Char} :
    ∀ (ls : List (List Char)), (∀ l ∈ ls, c ∉ l) →
      lsplit [c] ((ls.map (fun l => l ++ [c])).flatten) = ls ++ [[]] := by
  intro ls
  induction ls with
  | nil =>
    intro _
    simpa using lsplit_nil [c]
  | cons l rest ih =>
    intro h
    have hjoin : ((l :: rest).map (fun t => t ++ [c])).flatten =
        l ++ c :: (rest.map (fun t => t ++ [c])).flatten := by
      simp
    rw [hjoin, lsplit_char (h l (by simp))]
    rw [ih (fun t ht => h t (by simp [ht]))]
    rfl

/-! ## String-to-character-list bridge lemmas -/

theorem mk_data (l : List Char) : (String.mk l).data = l := rfl

theorem foldl_join_data : ∀ (l : List String) (acc : String),
    (l.foldl (fun r s => r ++ s) acc).data = acc.data ++ (l.map String.data).flatten := by
  intro l
  induction l with
  | nil => intro acc; simp
  | cons x xs ih =>
    intro acc
    show (xs.foldl (fun r s => r ++ s) (acc ++ x)).data = _
    rw [ih (acc ++ x), String.data_append]
    simp [List.append_assoc]

theorem strJoin_data (l : List String) :
    (String.join l).data = (l.map String.data).flatten := by
  unfold String.join
  rw [foldl_join_data l ""]
  rfl

theorem foldl_line_data {α : Type} (g : String → α → String) (f : α → String)
    (hg : ∀ a x, (g a x).data = a.data ++ (f x).data) :
    ∀ (l : List α) (acc : String),
      (l.foldl g acc).data = acc.data ++ ((l.map f).map String.data).flatten := by
  intro l
  induction l with
  | nil => intro acc; simp
  | cons x xs ih =>
    intro acc
    show (xs.foldl g (g acc x)).data = _
    rw [ih (g acc x), hg]
    simp [List.append_assoc]

/-- The context builder rendered as a flat template: header, first three
document lines, observation header, first five observation lines. -/
theorem build_context_eq (docs : List Doc) (obs : List Obs) :
    build_context docs obs =
      "Knowledge Base Information:\n" ++ String.join ((docs.take 3).map specDocLine) ++
        "\nRecent Observations:\n" ++ String.join ((obs.take 5).map specObsLine) := by
  apply String.ext
  unfold build_context
  rw [foldl_line_data _ specObsLine (by
    intro a x
    simp [specObsLine, String.data_append, List.append_assoc])]
  rw [String.data_append]
  rw [foldl_line_data _ specDocLine (by
    intro a x
    simp [specDocLine, String.data_append, List.append_assoc])]
  simp [String.data_append, strJoin_data, List.append_assoc]

/-! ## Lemmas about stripL -/

theorem stripL_append_space (x : List Char) : stripL (x ++ [' ']) = stripL x := by
  unfold stripL
  rw [List.dropWhile_append]
  by_cases he : (x.dropWhile pyWs).isEmpty = true
  · rw [if_pos he]
    have hx : x.dropWhile pyWs = [] := by
      cases hd : x.dropWhile pyWs
      · rfl
      · rw [hd] at he; simp at he
    rw [hx]
    rfl
  · rw [if_neg he]
    have hrev : (x.dropWhile pyWs ++ [' ']).reverse = ' ' :: (x.dropWhile pyWs).reverse := by
      simp
    rw [hrev]
    rw [List.dropWhile_cons_of_pos (by rfl : pyWs ' ' = true)]

theorem stripL_eq_of_beq {s : List Char} (h : (stripL s == s) = true) : stripL s = s :=
  eq_of_beq h

/-! ## Service-level helper lemmas -/

theorem generate_response_normal (key query context : String)
    (primary secondary : Except Unit String) :
    generate_response false (some key) query context primary secondary =
      if pyIn "None" key || key == "" || decide (key.length < 20) then
        ⟨true, false, Except.ok (generate_fallback_response query context)⟩
      else
        match primary with
        | Except.ok content => ⟨false, true, Except.ok content⟩
        | Except.error _ =>
          match secondary with
          | Except.ok content => ⟨false, true, Except.ok content⟩
          | Except.error _ => ⟨true, true, Except.ok (generate_fallback_response query context)⟩ := rfl

theorem get_species_from_image_normal (key path : String) (remote : VisionOutcome) :
    get_species_from_image false (some key) path remote =
      if pyIn "None" key || key == "" || decide (key.length < 20) then
        ⟨true, false, Except.ok (generate_fallback_identification path)⟩
      else
        match remote with
        | VisionOutcome.err => ⟨true, true, Except.ok (generate_fallback_identification path)⟩
        | VisionOutcome.noChoices =>
          ⟨true, true, Except.ok (generate_fallback_identification path)⟩
        | VisionOutcome.ok content =>
          ⟨false, true, Except.ok ⟨true, content, extract_species_from_result content⟩⟩ := rfl

theorem credentialPrecheck_not_cond (key : String) :
    credentialPrecheck key = !(pyIn "None" key || key == "" || decide (key.length < 20)) := by
  have h20 : decide (20 ≤ key.length) = !decide (key.length < 20) := by
    by_cases h : key.length < 20
    · have h2 : ¬ 20 ≤ key.length := by omega
      simp [h, h2]
    · have h2 : 20 ≤ key.length := by omega
      simp [h, h2]
  unfold credentialPrecheck
  rw [show (key != "") = !(key == "") from rfl, h20]
  cases pyIn "None" key <;> cases key == "" <;> cases decide (key.length < 20) <;> rfl

theorem format_observations_eq (formattingFault : Obs → Bool) (observations : List Obs) :
    format_observations formattingFault observations =
      (observations.filter (fun o => truthyCoords o && !(formattingFault o))).map
        (fun o => featureOf o (o.coordinates.getD [])) := by
  unfold format_observations
  suffices h : ∀ (l : List Obs) (acc : List Feature),
      l.foldl (fun acc obs =>
        match obs.coordinates with
        | some coords =>
          if coords.isEmpty then acc
          else if formattingFault obs then acc
          else acc ++ [featureOf obs coords]
        | none => acc) acc =
      acc ++ (l.filter (fun o => truthyCoords o && !(formattingFault o))).map
        (fun o => featureOf o (o.coordinates.getD [])) by
    simpa using h observations []
  intro l
  induction l with
  | nil => intro acc; simp
  | cons o rest ih =>
    intro acc
    cases hc : o.coordinates with
    | none =>
      have ht : truthyCoords o = false := by simp [truthyCoords, hc]
      simp only [List.foldl_cons, hc]
      rw [ih]
      simp [List.filter_cons, ht]
    | some cs =>
      cases hemp : cs.isEmpty with
      | true =>
        have ht : truthyCoords o = false := by simp [truthyCoords, hc, hemp]
        simp only [List.foldl_cons, hc, hemp, if_true]
        rw [ih]
        simp [List.filter_cons, ht]
      | false =>
        have ht : truthyCoords o = true := by simp [truthyCoords, hc, hemp]
        cases hff : formattingFault o with
        | true =>
          simp only [List.foldl_cons, hc, hemp, hff]
          rw [ih]
          simp [List.filter_cons, ht, hff]
        | false =>
          simp only [List.foldl_cons, hc, hemp, hff]
          rw [ih]
          simp [List.filter_cons, ht, hff, hc]

/-! ## Claims -/

/-- C1: the fallback flag of each family is monotone: with the flag set,
generate_response and get_species_from_image return the deterministic
fallback result, attempt no remote call, and leave the flag set, for every
credential, input and remote outcome (so no call ever resets it). -/
theorem claim_C1_fallback_monotone :
    (∀ (apiKey : Option String) (query context : String)
        (primary secondary : Except Unit String),
      generate_response true apiKey query context primary secondary =
        ⟨true, false, Except.ok (generate_fallback_response query context)⟩) ∧
    (∀ (apiKey : Option String) (path : String) (remote : VisionOutcome),
      get_species_from_image true apiKey path remote =
        ⟨true, false, Except.ok (generate_fallback_identification path)⟩) := by
  constructor
  · intro apiKey query context primary secondary
    rfl
  · intro apiKey path remote
    rfl

/-- C3 (code bug witness): with the credential absent (Python None, as when
the OPENAI_API_KEY variable is unset) and the flag still Normal, the check
on ai_service.py line 21 evaluates `"None" in api_key` on None and raises
TypeError outside every try block, so get_species_from_image propagates an
exception instead of returning a success-shaped IdentificationResult. -/
theorem claim_C3_none_credential_raises :
    ∀ (path : String) (remote : VisionOutcome),
      get_species_from_image false none path remote = ⟨false, false, Except.error ()⟩ := by
  intro path remote
  rfl

/-- C6 counterexample: on the query named by the claim the code returns
["margalla hills", "bird", "birds"], because the category token "birds"
also matches as a substring; the claim's value ["margalla hills", "bird"]
is wrong. -/
theorem claim_C6_counterexample :
    extract_key_terms "Tell me about birds near Margalla Hills" =
      ["margalla hills", "bird", "birds"] ∧
    (["margalla hills", "bird", "birds"] : List String) ≠ ["margalla hills", "bird"] := by
  constructor
  · decide
  · decide

/-- C6 (amended): extract_key_terms is case-insensitive substring matching
of the query against the location list then the category list in
vocabulary scan order, never fails, yields [] on empty input, and on
"Tell me about birds near Margalla Hills" returns exactly
["margalla hills", "bird", "birds"]. -/
theorem claim_C6_amended :
    (∀ query : String, extract_key_terms query =
      (locations_vocab ++ categories_vocab).filter (fun t => pyIn t (pyLower query))) ∧
    (∀ (query term : String), term ∈ extract_key_terms query ↔
      (term ∈ locations_vocab ++ categories_vocab ∧ pyIn term (pyLower query) = true)) ∧
    extract_key_terms "" = [] ∧
    extract_key_terms "Tell me about birds near Margalla Hills" =
      ["margalla hills", "bird", "birds"] := by
  refine ⟨?_, ?_, by decide, by decide⟩
  · intro query
    simp [extract_key_terms, List.filter_append]
  · intro query term
    simp only [extract_key_terms, List.mem_append, List.mem_filter]
    tauto

/-- C2 counterexample: the 24-character credential below passes the
claim's precheck (non-empty, not the literal "None", length at least 20),
yet both operations take the deterministic fallback path without entering
the remote section, because the source tests `"None" in api_key` as a
substring. -/
theorem claim_C2_counterexample :
    claimedCredentialPrecheck "xNonexxxxxxxxxxxxxxxxxxx" = true ∧
    generate_response false (some "xNonexxxxxxxxxxxxxxxxxxx") "query" "context"
        (Except.ok "reply") (Except.ok "reply") =
      ⟨true, false, Except.ok (generate_fallback_response "query" "context")⟩ ∧
    get_species_from_image false (some "xNonexxxxxxxxxxxxxxxxxxx") "img.jpg"
        (VisionOutcome.ok "reply") =
      ⟨true, false, Except.ok (generate_fallback_identification "img.jpg")⟩ := by
  refine ⟨by decide, ?_, ?_⟩
  · rw [generate_response_normal, if_pos (by decide)]
  · rw [get_species_from_image_normal, if_pos (by decide)]

/-- C2 (amended): in Normal mode with a string credential, both operations
enter the remote section exactly when the credential is non-empty, does
not contain "None" as a substring, and has length at least 20; every
credential failing this check makes both operations return the
deterministic fallback result with the flag set and no remote attempt. -/
theorem claim_C2_amended (key query context path : String)
    (primary secondary : Except Unit String) (remote : VisionOutcome) :
    ((generate_response false (some key) query context primary secondary).attempted = true ↔
      credentialPrecheck key = true) ∧
    ((get_species_from_image false (some key) path remote).attempted = true ↔
      credentialPrecheck key = true) ∧
    (credentialPrecheck key = false →
      generate_response false (some key) query context primary secondary =
        ⟨true, false, Except.ok (generate_fallback_response query context)⟩ ∧
      get_species_from_image false (some key) path remote =
        ⟨true, false, Except.ok (generate_fallback_identification path)⟩) := by
  rw [generate_response_normal, get_species_from_image_normal, credentialPrecheck_not_cond]
  cases hcnd : pyIn "None" key || key == "" || decide (key.length < 20) with
  | true =>
    rw [if_pos rfl, if_pos rfl]
    refine ⟨by simp, by simp, fun _ => ⟨rfl, rfl⟩⟩
  | false =>
    rw [if_neg (by simp), if_neg (by simp)]
    refine ⟨?_, ?_, by simp⟩
    · cases primary with
      | ok content => simp
      | error e =>
        cases secondary with
        | ok content => simp
        | error e2 => simp
    · cases remote <;> simp

/-- C2 witness: the short credential "short" fails the amended precheck and
both operations return the fallback result with no remote attempt. -/
theorem claim_C2_amended_witness :
    credentialPrecheck "short" = false ∧
    generate_response false (some "short") "q" "c" (Except.ok "x") (Except.ok "y") =
      ⟨true, false, Except.ok (generate_fallback_response "q" "c")⟩ ∧
    get_species_from_image false (some "short") "a.jpg" (VisionOutcome.ok "t") =
      ⟨true, false, Except.ok (generate_fallback_identification "a.jpg")⟩ := by
  have h := (claim_C2_amended "short" "q" "c" "a.jpg" (Except.ok "x") (Except.ok "y")
    (VisionOutcome.ok "t")).2.2 (by decide)
  exact ⟨by decide, h.1, h.2⟩

theorem gfi_eq (path : String) :
    generate_fallback_identification path =
      match common_wildlife.find? (fun entry => pyIn entry.kw (processedFilename path)) with
      | some info =>
        ⟨true,
         "This appears to be a " ++ info.name ++ " (" ++ info.scientific ++
           "), which is a " ++ info.category ++
           " found in Islamabad, Pakistan. (Note: This is an offline identification)",
         some ⟨info.name, 7/10⟩⟩
      | none =>
        ⟨true,
         "This appears to be a wildlife species from Islamabad, Pakistan. For accurate identification, please try again when the AI service is available. (Note: This is an offline identification)",
         some ⟨"Unknown Wildlife Species", 1/2⟩⟩ := rfl

/-- C7: generate_fallback_identification scans the fixed keyword table in
declaration order (leopard, deer, fox, bird, eagle, duck, snake) over the
normalised filename (prefix before the first "_" and the extension
stripped, lowercased); the first contained keyword wins with confidence
0.7, a miss yields "Unknown Wildlife Species" with confidence 0.5, the
result always carries the offline note, and "uuid123_leopard.jpg" yields
"Common Leopard" at 0.7. -/
theorem claim_C7_fallback_identification :
    (common_wildlife.map (fun e => e.kw) =
      ["leopard", "deer", "fox", "bird", "eagle", "duck", "snake"]) ∧
    (∀ path : String,
      pyIn "(Note: This is an offline identification)"
        (generate_fallback_identification path).result = true ∧
      (generate_fallback_identification path).species =
        (match common_wildlife.find? (fun entry => pyIn entry.kw (processedFilename path)) with
         | some info => some ⟨info.name, 7/10⟩
         | none => some ⟨"Unknown Wildlife Species", 1/2⟩) ∧
      (generate_fallback_identification path).success = true) ∧
    (generate_fallback_identification "uuid123_leopard.jpg").species =
      some ⟨"Common Leopard", 7/10⟩ ∧
    pyIn "(Note: This is an offline identification)"
      (generate_fallback_identification "uuid123_leopard.jpg").result = true := by
  refine ⟨by decide, ?_, rfl, by decide⟩
  intro path
  rw [gfi_eq]
  cases hf : common_wildlife.find? (fun entry => pyIn entry.kw (processedFilename path)) with
  | none => exact ⟨by decide, rfl, rfl⟩
  | some info =>
    have hmem : info ∈ common_wildlife := List.mem_of_find?_eq_some hf
    have hcases : info = ⟨"leopard", "Common Leopard", "Panthera pardus", "Mammal"⟩ ∨
        info = ⟨"deer", "Barking Deer", "Muntiacus muntjak", "Mammal"⟩ ∨
        info = ⟨"fox", "Red Fox", "Vulpes vulpes", "Mammal"⟩ ∨
        info = ⟨"bird", "Himalayan Griffon", "Gyps himalayensis", "Bird"⟩ ∨
        info = ⟨"eagle", "Steppe Eagle", "Aquila nipalensis", "Bird"⟩ ∨
        info = ⟨"duck", "Mallard Duck", "Anas platyrhynchos", "Bird"⟩ ∨
        info = ⟨"snake", "Indian Cobra", "Naja naja", "Reptile"⟩ := by
      simpa [common_wildlife] using hmem
    refine ⟨?_, rfl, rfl⟩
    rcases hcases with rfl | rfl | rfl | rfl | rfl | rfl | rfl <;> decide

/-- C9: format_observations keeps exactly the observations with a truthy
coordinates field whose per-item formatting does not fault, mapping each
to a "Point" Feature with the observation's coordinates and defaulted
properties; a per-item fault drops only that item; an observation with
coordinates [73.05, 33.68] yields a Point Feature with those coordinates
and one without coordinates is excluded. -/
theorem claim_C9_format_observations :
    (∀ (formattingFault : Obs → Bool) (observations : List Obs),
      format_observations formattingFault observations =
        (observations.filter (fun o => truthyCoords o && !(formattingFault o))).map
          (fun o => featureOf o (o.coordinates.getD []))) ∧
    (format_observations (fun _ => false)
        [{ species_name := some "Common Leopard",
           coordinates := some [7305/100, 3368/100] }] =
      [⟨"Point", [7305/100, 3368/100], "", "Common Leopard", "", "", ""⟩]) ∧
    (format_observations (fun _ => false) [{ species_name := some "Missing Coords" }] = []) :=
  ⟨format_observations_eq, rfl, rfl⟩

/-- C5: build_context renders exactly the first three documents and first
five observations in the documented template with placeholder defaults;
in particular with four documents and seven observations only the first
three and first five appear. -/
theorem claim_C5_build_context :
    (∀ (docs : List Doc) (obs : List Obs),
      build_context docs obs =
        "Knowledge Base Information:\n" ++ String.join ((docs.take 3).map specDocLine) ++
          "\nRecent Observations:\n" ++ String.join ((obs.take 5).map specObsLine)) ∧
    (∀ (d1 d2 d3 d4 : Doc) (o1 o2 o3 o4 o5 o6 o7 : Obs),
      build_context [d1, d2, d3, d4] [o1, o2, o3, o4, o5, o6, o7] =
        build_context [d1, d2, d3] [o1, o2, o3, o4, o5]) := by
  refine ⟨build_context_eq, ?_⟩
  intro d1 d2 d3 d4 o1 o2 o3 o4 o5 o6 o7
  rw [build_context_eq, build_context_eq]
  rfl

theorem lsubstr_iff_parts (pat s : List Char) :
    lsubstr pat s = true ↔ ∃ x y, s = x ++ pat ++ y := by
  constructor
  · intro h
    induction s with
    | nil =>
      have hemp : pat.isEmpty = true := h
      have : pat = [] := by
        cases pat with
        | nil => rfl
        | cons p ps => simp at hemp
      exact ⟨[], [], by simp [this]⟩
    | cons c rest ih =>
      rw [lsubstr_cons_split] at h
      cases hp : pat.isPrefixOf (c :: rest) with
      | true =>
        obtain ⟨t, ht⟩ := (isPfxOf_iff _ _).mp hp
        exact ⟨[], t, by simp [ht]⟩
      | false =>
        rw [hp] at h
        obtain ⟨x, y, hxy⟩ := ih (by simpa using h)
        exact ⟨c :: x, y, by simp [hxy]⟩
  · rintro ⟨x, y, rfl⟩
    exact lsubstr_append_mid pat x y

theorem pyIn_lower_of_pyIn {pat query : String} (hlow : pat.data.map Char.toLower = pat.data)
    (h : pyIn pat query = true) : pyIn pat (pyLower query) = true := by
  unfold pyIn at h ⊢
  obtain ⟨x, y, hxy⟩ := (lsubstr_iff_parts _ _).mp h
  show lsubstr pat.data (query.data.map Char.toLower) = true
  rw [hxy, List.map_append, List.map_append, hlow]
  exact lsubstr_append_mid _ _ _

/-- C4: whenever the lowered query contains "bird" (or "birds"), the
deterministic fallback answers from the bird branch alone: the joined
bird-matching parsed species when any exist, else exactly the apology
literal; the later branches are never consulted.  On the claim's instance
(a "birds" query over a Rawal Lake context with no bird-matching species)
the apology literal is returned. -/
theorem claim_C4_bird_branch :
    (∀ (query context : String),
      (pyIn "bird" (pyLower query) || pyIn "birds" (pyLower query)) = true →
      generate_fallback_response query context =
        (if ((parseContext context).1.filter (fun s =>
              pyIn "bird" (pyLower s) || pyIn "duck" (pyLower s) ||
                pyIn "eagle" (pyLower s))).isEmpty then
          "I don't have specific information about birds in that area from our records."
        else
          "Based on our records, the following bird species have been observed in Islamabad: " ++
            joinComma ((parseContext context).1.filter (fun s =>
              pyIn "bird" (pyLower s) || pyIn "duck" (pyLower s) ||
                pyIn "eagle" (pyLower s))) ++ ".")) ∧
    (∀ query : String, (pyIn "bird" query || pyIn "birds" query) = true →
      (pyIn "bird" (pyLower query) || pyIn "birds" (pyLower query)) = true) ∧
    generate_fallback_response "What birds live near the lake?"
        (build_context []
          [{ species_name := some "Rhesus Monkey", location := some "Rawal Lake",
             date_observed := some "2024-01-01" }]) =
      "I don't have specific information about birds in that area from our records." := by
  refine ⟨?_, ?_, by decide⟩
  · intro query context h
    unfold generate_fallback_response
    rw [if_pos h]
  · intro query h
    cases hb : pyIn "bird" query with
    | true =>
      rw [pyIn_lower_of_pyIn rfl hb]
      rfl
    | false =>
      have hbs : pyIn "birds" query = true := by
        rw [hb] at h
        simpa using h
      rw [pyIn_lower_of_pyIn rfl hbs]
      simp

/-- C4 witness: a concrete query containing "birds" over the empty context
falls into the bird branch and returns the apology literal. -/
theorem claim_C4_bird_branch_witness :
    (pyIn "bird" (pyLower "Any birds around?") ||
      pyIn "birds" (pyLower "Any birds around?")) = true ∧
    generate_fallback_response "Any birds around?" "" =
      "I don't have specific information about birds in that area from our records." := by
  refine ⟨by decide, ?_⟩
  rw [claim_C4_bird_branch.1 "Any birds around?" "" (by decide)]
  decide

/-! ## Helper lemmas for the split pipeline of extract_species_from_result -/

theorem splitAuxF_ne_nil (sep : List Char) :
    ∀ (fuel : Nat) (s acc : List Char), splitAuxF sep fuel s acc ≠ [] := by
  intro fuel
  induction fuel with
  | zero =>
    intro s acc
    cases s with
    | nil => simp [splitAuxF]
    | cons c rest => simp [splitAuxF]
  | succ f ih =>
    intro s acc
    cases s with
    | nil => simp [splitAuxF]
    | cons c rest =>
      show splitAuxF sep (f + 1) (c :: rest) acc ≠ []
      simp only [splitAuxF]
      by_cases hp : sep.isPrefixOf (c :: rest) = true
      · rw [if_pos hp]
        simp
      · rw [if_neg hp]
        exact ih rest (c :: acc)

theorem lsplit_ne_nil (sep s : List Char) : lsplit sep s ≠ [] := by
  unfold lsplit
  by_cases h : sep.isEmpty = true
  · simp [h]
  · simp only [h, if_false]
    exact splitAuxF_ne_nil sep s.length s []

theorem map_mk_headD {l : List (List Char)} (h : l ≠ []) :
    (l.map String.mk).headD "" = String.mk (l.headD []) := by
  cases l with
  | nil => exact absurd rfl h
  | cons x xs => rfl

theorem pySplit_headD (s sep : String) (hsep : sep.data ≠ []) :
    (pySplit s sep).headD "" = String.mk (s.data.take (firstOccL sep.data s.data)) := by
  unfold pySplit
  rw [map_mk_headD (lsplit_ne_nil sep.data s.data), lsplit_headD hsep]

theorem pySplit_getD_one (t sep : String) (hsep : sep.data ≠ [])
    (h : lsubstr sep.data t.data = true) :
    (pySplit t sep).getD 1 "" =
      String.mk ((t.data.drop (firstOccL sep.data t.data + sep.data.length)).take
        (firstOccL sep.data (t.data.drop (firstOccL sep.data t.data + sep.data.length)))) := by
  unfold pySplit
  rw [lsplit_contains hsep h]
  show ((lsplit sep.data _).map String.mk).getD 0 "" = _
  have hgd : ∀ (l : List String) (d : String), l.getD 0 d = l.headD d := by
    intro l d
    cases l <;> rfl
  rw [hgd]
  rw [map_mk_headD (lsplit_ne_nil sep.data _), lsplit_headD hsep]

theorem extract_species_some {t : String} (h : pyIn "identified as" (pyLower t) = true) :
    extract_species_from_result t =
      some ⟨amendedSpeciesName t, get_confidence_from_text t⟩ := by
  unfold extract_species_from_result
  rw [if_pos h]
  have hsep : ("identified as" : String).data ≠ [] := by decide
  have h' : lsubstr ("identified as" : String).data (pyLower t).data = true := h
  have e1 : (pySplit (pyLower t) "identified as").getD 1 "" =
      String.mk (((pyLower t).data.drop
          (firstOccL ("identified as" : String).data (pyLower t).data +
            ("identified as" : String).data.length)).take
        (firstOccL ("identified as" : String).data
          ((pyLower t).data.drop
            (firstOccL ("identified as" : String).data (pyLower t).data +
              ("identified as" : String).data.length)))) :=
    pySplit_getD_one (pyLower t) "identified as" hsep h'
  rw [e1]
  dsimp only
  have e2 : ∀ (part : List Char),
      pyStrip ((pySplit (pyStrip (String.mk part)) ".").headD "") =
        String.mk (stripL ((stripL part).take
          (firstOccL ("." : String).data (stripL part)))) := by
    intro part
    have hd : (pyStrip (String.mk part)) = String.mk (stripL part) := rfl
    rw [hd, pySplit_headD (String.mk (stripL part)) "." (by decide)]
    rfl
  rw [e2]
  rfl

/-- C8 counterexample: on a text with two occurrences of "identified as",
the code returns the lowercased segment between the two occurrences
("a"), while the claim's description - the text following "identified
as" up to the next period - gives "A identified as B". -/
theorem claim_C8_counterexample :
    extract_species_from_result "Identified as A identified as B. Done." =
      some ⟨"a", 3/5⟩ ∧
    claimedSpeciesName "Identified as A identified as B. Done." = "A identified as B" ∧
    ("a" : String) ≠ "A identified as B" := by
  refine ⟨rfl, by decide, by decide⟩

/-- C8 (amended): get_confidence_from_text scans the lowered text for
"high confidence" / "medium confidence" / "low confidence" in that
priority yielding 0.9 / 0.7 / 0.5 with default 0.6; a species record is
produced exactly when the text contains "identified as"
case-insensitively, its name being the lowercased, stripped text between
the first "identified as" and the next occurrence or the first period,
whichever comes first; and the enclosing remote-success result keeps
success true with the raw text even when the species record is absent. -/
theorem claim_C8_amended (t : String) :
    (extract_species_from_result t = none ↔ pyIn "identified as" (pyLower t) = false) ∧
    (pyIn "identified as" (pyLower t) = true →
      extract_species_from_result t =
        some ⟨amendedSpeciesName t, get_confidence_from_text t⟩) ∧
    (get_confidence_from_text t =
      (if pyIn "high confidence" (pyLower t) = true then (9/10 : ℚ)
       else if pyIn "medium confidence" (pyLower t) = true then 7/10
       else if pyIn "low confidence" (pyLower t) = true then 1/2
       else 3/5)) ∧
    (∀ path : String,
      (get_species_from_image false (some "sk-abcdefghijklmnopqrstuvwxyz") path
          (VisionOutcome.ok t)).output =
        Except.ok ⟨true, t, extract_species_from_result t⟩) := by
  refine ⟨?_, fun h => extract_species_some h, rfl, ?_⟩
  · unfold extract_species_from_result
    by_cases hc : pyIn "identified as" (pyLower t) = true
    · rw [if_pos hc]
      simp [hc]
    · rw [if_neg hc]
      simp only [Bool.not_eq_true] at hc
      simp [hc]
  · intro path
    rw [get_species_from_image_normal, if_neg (by decide)]

/-- C8 witness: a single-occurrence high-confidence text produces the
lowercased stripped species name with confidence 0.9, and the enclosing
remote-success result keeps success true. -/
theorem claim_C8_amended_witness :
    pyIn "identified as"
      (pyLower "The animal is identified as Barn Owl. High confidence.") = true ∧
    extract_species_from_result "The animal is identified as Barn Owl. High confidence." =
      some ⟨"barn owl", 9/10⟩ ∧
    (get_species_from_image false (some "sk-abcdefghijklmnopqrstuvwxyz") "owl.jpg"
        (VisionOutcome.ok "The animal is identified as Barn Owl. High confidence.")).output =
      Except.ok ⟨true, "The animal is identified as Barn Owl. High confidence.",
        extract_species_from_result
          "The animal is identified as Barn Owl. High confidence."⟩ := by
  have h := claim_C8_amended "The animal is identified as Barn Owl. High confidence."
  refine ⟨by decide, ?_, h.2.2.2 "owl.jpg"⟩
  rw [h.2.1 (by decide)]
  rfl

/-! ## Occurrence analysis for the context round-trip (claim C10) -/

theorem mk_data_eq (s : String) : String.mk s.data = s := by
  cases s
  rfl

theorem notMem_of_all_bne {s : List Char} {c : Char}
    (h : s.all (fun x => x != c) = true) : c ∉ s := by
  intro hmem
  have := List.all_eq_true.mp h c hmem
  simp at this

theorem isPfxOf_head_mismatch {p x : Char} {ps xs : List Char} (h : (p == x) = false) :
    (p :: ps).isPrefixOf (x :: xs) = false := by
  simp only [List.isPrefixOf, h, Bool.false_and]

/-- No occurrence of `sep` starts strictly inside `S` when `S` is
occurrence-free and every straddling continuation into `v` is excluded. -/
theorem no_pfx_mid (sep S v : List Char) (hS : lsubstr sep S = false)
    (hjunction : ∀ d, 0 < d → d < sep.length →
      (∃ w, S = w ++ sep.take d) → (sep.drop d).isPrefixOf v = false) :
    ∀ j, j < S.length → sep.isPrefixOf (S.drop j ++ v) = false := by
  intro j hj
  cases hp : sep.isPrefixOf (S.drop j ++ v) with
  | false => rfl
  | true =>
    exfalso
    have hT : 0 < (S.drop j).length := by
      simp only [List.length_drop]
      omega
    by_cases hlen : sep.length ≤ (S.drop j).length
    · have hx := isPfxOf_of_append_le v hp hlen
      have hsub := lsubstr_of_pfx_drop j hx
      rw [hsub] at hS
      exact Bool.noConfusion hS
    · have hlen' : (S.drop j).length < sep.length := by omega
      obtain ⟨heq, hpre⟩ := isPfxOf_append_split v hp hlen'
      have hTake : sep.take (S.drop j).length = S.drop j := by
        rw [← heq]
        exact ttake_len_append (S.drop j) _
      have hsuf : ∃ w, S = w ++ sep.take (S.drop j).length := by
        refine ⟨S.take j, ?_⟩
        rw [hTake]
        exact (List.take_append_drop j S).symm
      have hx := hjunction (S.drop j).length hT hlen' hsuf
      rw [hx] at hpre
      exact Bool.noConfusion hpre

/-- A straddling suffix of `sep` cannot begin `front ++ D` when it can
neither begin `front` nor be begun by `front`. -/
theorem junction_front (sep front D : List Char)
    (h1 : ∀ d, 0 < d → d < sep.length → sep.length - d ≤ front.length →
        (sep.drop d).isPrefixOf front = false)
    (h2 : ∀ d, 0 < d → d < sep.length → front.length < sep.length - d →
        front.isPrefixOf (sep.drop d) = false) :
    ∀ d, 0 < d → d < sep.length → (sep.drop d).isPrefixOf (front ++ D) = false := by
  intro d hd1 hd2
  cases hp : (sep.drop d).isPrefixOf (front ++ D) with
  | false => rfl
  | true =>
    exfalso
    have hdl : (sep.drop d).length = sep.length - d := by
      simp [List.length_drop]
    by_cases hc : (sep.drop d).length ≤ front.length
    · have hx := isPfxOf_of_append_le D hp hc
      rw [h1 d hd1 hd2 (by omega)] at hx
      exact Bool.noConfusion hx
    · have hc' : front.length < (sep.drop d).length := by omega
      obtain ⟨heq, _⟩ := isPfxOf_append_split D hp hc'
      have hx : front.isPrefixOf (sep.drop d) = true := by
        rw [← heq]
        exact isPfxOf_refl_append _ _
      rw [h2 d hd1 hd2 (by omega)] at hx
      exact Bool.noConfusion hx

theorem obsAt_head_o (rest : List Char) :
    ("observed at" : String).data.isPrefixOf (' ' :: rest) = false := by
  have h : ("observed at" : String).data = 'o' :: ("bserved at" : String).data := by decide
  rw [h]
  exact isPfxOf_head_mismatch (by decide)

theorem obsAt_head_dash (rest : List Char) :
    ("observed at" : String).data.isPrefixOf ('-' :: rest) = false := by
  have h : ("observed at" : String).data = 'o' :: ("bserved at" : String).data := by decide
  rw [h]
  exact isPfxOf_head_mismatch (by decide)

theorem obsAt_junction_space : ∀ e, e < 11 → 0 < e →
    ((("observed at" : String).data.drop e).isPrefixOf
      (' ' :: ("observed at" : String).data)) = false := by
  decide

theorem obsAt_junction_on1 : ∀ e, e < 11 → 0 < e → 11 - e ≤ 4 →
    ((("observed at" : String).data.drop e).isPrefixOf ((" on " : String).data)) = false := by
  decide

theorem obsAt_junction_on2 : ∀ e, e < 11 → 0 < e → 4 < 11 - e →
    (((" on " : String).data).isPrefixOf (("observed at" : String).data.drop e)) = false := by
  decide

theorem on_chunk_not_pfx : ∀ m, m < 4 →
    (((" on " : String).data.drop m).isPrefixOf (("observed at" : String).data)) = false := by
  decide

theorem obsAt_not_in_tail {L D : List Char}
    (hL : lsubstr ("observed at" : String).data L = false)
    (hD : lsubstr ("observed at" : String).data D = false) :
    lsubstr ("observed at" : String).data
      (' ' :: (L ++ (" on " : String).data ++ D)) = false := by
  have hsl : ("observed at" : String).data.length = 11 := by decide
  have honl : (" on " : String).data.length = 4 := by decide
  apply lsubstr_false_of_no_pfx
  intro i
  cases i with
  | zero =>
    simp only [List.drop_zero]
    exact obsAt_head_o _
  | succ j =>
    simp only [List.drop_succ_cons]
    have hassoc : L ++ (" on " : String).data ++ D = L ++ ((" on " : String).data ++ D) := by
      simp [List.append_assoc]
    rw [hassoc]
    by_cases hj : j < L.length
    · rw [tdrop_append_le L _ (by omega)]
      apply no_pfx_mid _ L _ hL _ j hj
      intro d hd1 hd2 _
      apply junction_front _ ((" on " : String).data) D _ _ d hd1 hd2
      · intro e he1 he2 he3
        exact obsAt_junction_on1 e (by omega) he1 (by omega)
      · intro e he1 he2 he3
        exact obsAt_junction_on2 e (by omega) he1 (by omega)
    · rw [show j = L.length + (j - L.length) from by omega, tdrop_add]
      by_cases hm : j - L.length < 4
      · rw [tdrop_append_le _ _ (by omega)]
        cases hp : ("observed at" : String).data.isPrefixOf
            (((" on " : String).data.drop (j - L.length)) ++ D) with
        | false => rfl
        | true =>
          exfalso
          have hlen : ((" on " : String).data.drop (j - L.length)).length <
              ("observed at" : String).data.length := by
            simp only [List.length_drop, List.length_cons, List.length_nil]
            omega
          obtain ⟨heq, _⟩ := isPfxOf_append_split D hp hlen
          have hpfx : ((" on " : String).data.drop (j - L.length)).isPrefixOf
              (("observed at" : String).data) = true := by
            rw [← heq]
            exact isPfxOf_refl_append _ _
          rw [on_chunk_not_pfx (j - L.length) hm] at hpfx
          exact Bool.noConfusion hpfx
      · rw [show j - L.length = (" on " : String).data.length + (j - L.length - 4) from by omega,
          tdrop_add]
        exact no_pfx_of_lsubstr_false hD _

theorem obsAt_cond (S tail : List Char)
    (hS : lsubstr ("observed at" : String).data S = false) :
    ∀ i, i < ((("- " : String).data ++ S ++ [' ']).length) →
      ("observed at" : String).data.isPrefixOf
        ((((("- " : String).data ++ S ++ [' ']) ++ ("observed at" : String).data ++
          (' ' :: tail))).drop i) = false := by
  have hsl : ("observed at" : String).data.length = 11 := by decide
  have hdl : ("- " : String).data.length = 2 := by decide
  intro i hi
  have hlen : (("- " : String).data ++ S ++ [' ']).length = S.length + 3 := by
    simp [List.length_append]
  have hshape : ((("- " : String).data ++ S ++ [' ']) ++ ("observed at" : String).data ++
      (' ' :: tail)) =
      '-' :: ' ' :: (S ++ ([' '] ++ (("observed at" : String).data ++ (' ' :: tail)))) := by
    have hd : ("- " : String).data = ['-', ' '] := by decide
    rw [hd]
    simp [List.append_assoc]
  rw [hshape]
  match i, hi with
  | 0, _ =>
    simp only [List.drop_zero]
    exact obsAt_head_dash _
  | 1, _ =>
    simp only [List.drop_succ_cons, List.drop_zero]
    exact obsAt_head_o _
  | (j + 2), hi =>
    simp only [List.drop_succ_cons]
    by_cases hj : j < S.length
    · rw [tdrop_append_le S _ (by omega)]
      apply no_pfx_mid _ S _ hS _ j hj
      intro d hd1 hd2 _
      have hfront : [' '] ++ (("observed at" : String).data ++ (' ' :: tail)) =
          (' ' :: ("observed at" : String).data) ++ (' ' :: tail) := by
        simp
      rw [hfront]
      apply junction_front _ (' ' :: ("observed at" : String).data) (' ' :: tail) _ _ d hd1 hd2
      · intro e he1 he2 _
        exact obsAt_junction_space e (by omega) he1
      · intro e he1 he2 he3
        exfalso
        simp only [List.length_cons, hsl] at he3
        omega
    · have hj2 : j = S.length := by
        rw [hlen] at hi
        omega
      subst hj2
      rw [tdrop_len_append]
      exact obsAt_head_o _

theorem dash_not_in_species {S : List Char}
    (hS : lsubstr ("- " : String).data S = false)
    (hlast : S.getLastD 'a' ≠ '-') :
    lsubstr ("- " : String).data (S ++ [' ']) = false := by
  have hdl : ("- " : String).data.length = 2 := by decide
  apply lsubstr_false_of_no_pfx
  intro i
  by_cases hj : i < S.length
  · rw [tdrop_append_le S _ (by omega)]
    apply no_pfx_mid _ S _ hS _ i hj
    intro d hd1 hd2 hsuffix
    have hd : d = 1 := by omega
    subst hd
    exfalso
    obtain ⟨w, hw⟩ := hsuffix
    have htake : ("- " : String).data.take 1 = ['-'] := by decide
    rw [htake] at hw
    have : S.getLastD 'a' = '-' := by
      rw [hw]
      exact List.getLastD_concat 'a' '-' w
    exact absurd this hlast
  · rw [show i = S.length + (i - S.length) from by omega, tdrop_add]
    cases hm : i - S.length with
    | zero => decide
    | succ k =>
      have : ([' '] : List Char).drop (k + 1) = [] := by
        simp
      rw [this]
      decide

theorem obsBodyData_decomp (o : Obs) :
    obsBodyData o =
      (("- " : String).data ++ obsSpeciesData o ++ [' ']) ++ ("observed at" : String).data ++
        (' ' :: (obsLocData o ++ (" on " : String).data ++ obsDateData o)) := by
  unfold obsBodyData
  have hmid : (" observed at " : String).data =
      [' '] ++ ("observed at" : String).data ++ [' '] := by decide
  rw [hmid]
  simp [List.append_assoc]

theorem cleanObs_parts {o : Obs} (h : cleanObsB o = true) :
    ('\n' ∉ obsSpeciesData o) ∧
    lsubstr ("observed at" : String).data (obsSpeciesData o) = false ∧
    lsubstr ("- " : String).data (obsSpeciesData o) = false ∧
    stripL (obsSpeciesData o) = obsSpeciesData o ∧
    (obsSpeciesData o).getLastD 'a' ≠ '-' ∧
    ('\n' ∉ obsLocData o) ∧
    lsubstr ("observed at" : String).data (obsLocData o) = false ∧
    ('\n' ∉ obsDateData o) ∧
    lsubstr ("observed at" : String).data (obsDateData o) = false := by
  unfold cleanObsB cleanSpeciesB cleanFieldB at h
  simp only [Bool.and_eq_true, Bool.not_eq_true', beq_iff_eq, bne_iff_ne] at h
  obtain ⟨⟨⟨⟨⟨⟨h1, h2⟩, h3⟩, h4⟩, h5⟩, h6, h7⟩, h8, h9⟩ := h
  exact ⟨notMem_of_all_bne h1, h2, h3, h4, h5, notMem_of_all_bne h6, h7,
    notMem_of_all_bne h8, h9⟩

theorem split_body (o : Obs) (h : cleanObsB o = true) :
    lsplit ("observed at" : String).data (obsBodyData o) =
      [("- " : String).data ++ obsSpeciesData o ++ [' '],
       ' ' :: (obsLocData o ++ (" on " : String).data ++ obsDateData o)] := by
  obtain ⟨_, hS, _, _, _, _, hL, _, hD⟩ := cleanObs_parts h
  rw [obsBodyData_decomp]
  rw [lsplit_append_at (by decide) _ (obsAt_cond (obsSpeciesData o) _ hS)]
  rw [lsplit_not_contains (by decide) (obsAt_not_in_tail hL hD)]

theorem pySplit_body (o : Obs) (h : cleanObsB o = true) :
    pySplit (String.mk (obsBodyData o)) "observed at" =
      [String.mk (("- " : String).data ++ obsSpeciesData o ++ [' ']),
       String.mk (' ' :: (obsLocData o ++ (" on " : String).data ++ obsDateData o))] := by
  unfold pySplit
  rw [mk_data, split_body o h]
  rfl

theorem parse_line_species (o : Obs) (h : cleanObsB o = true) :
    pyStrip (pyReplace ((pySplit (String.mk (obsBodyData o)) "observed at").headD "") "- " "") =
      o.species_name.getD "Unknown species" := by
  obtain ⟨_, _, hdash, hstrip, hlast, _, _, _, _⟩ := cleanObs_parts h
  rw [pySplit_body o h]
  show pyStrip (pyReplace (String.mk (("- " : String).data ++ obsSpeciesData o ++ [' '])) "- " "") = _
  unfold pyReplace
  rw [mk_data]
  have hsplit2 : lsplit ("- " : String).data
      (("- " : String).data ++ obsSpeciesData o ++ [' ']) =
      [[], obsSpeciesData o ++ [' ']] := by
    have hshape : ("- " : String).data ++ obsSpeciesData o ++ [' '] =
        [] ++ ("- " : String).data ++ (obsSpeciesData o ++ [' ']) := by
      simp [List.append_assoc]
    rw [hshape]
    rw [lsplit_append_at (by decide) [] (by intro i hi; simp at hi)]
    rw [lsplit_not_contains (by decide) (dash_not_in_species hdash hlast)]
  rw [hsplit2]
  have hjw : joinWith ("" : String).data [[], obsSpeciesData o ++ [' ']] =
      obsSpeciesData o ++ [' '] := by
    show joinWith [] [[], obsSpeciesData o ++ [' ']] = _
    show [] ++ [] ++ (obsSpeciesData o ++ [' ']) = _
    simp
  rw [hjw]
  unfold pyStrip
  rw [mk_data, stripL_append_space, hstrip]
  exact mk_data_eq _

theorem parse_line_loc (o : Obs) (h : cleanObsB o = true) :
    pyStrip ((pySplit ((pySplit (String.mk (obsBodyData o)) "observed at").getD 1 "")
        "on").headD "") =
      locBeforeOn (o.location.getD "Unknown location") (o.date_observed.getD "Unknown date") := by
  rw [pySplit_body o h]
  show pyStrip ((pySplit (String.mk (' ' :: (obsLocData o ++ (" on " : String).data ++
      obsDateData o))) "on").headD "") = _
  rw [pySplit_headD _ "on" (by decide)]
  unfold pyStrip locBeforeOn
  dsimp only
  rw [mk_data, mk_data]
  have hseg : ((" " ++ o.location.getD "Unknown location" ++ " on " ++
      o.date_observed.getD "Unknown date") : String).data =
      ' ' :: (obsLocData o ++ (" on " : String).data ++ obsDateData o) := by
    unfold obsLocData obsDateData
    simp [String.data_append]
  rw [hseg]

theorem body_good (o : Obs) :
    (pyStartsWith (String.mk (obsBodyData o)) "- " &&
      pyIn "observed at" (String.mk (obsBodyData o))) = true := by
  have h1 : pyStartsWith (String.mk (obsBodyData o)) "- " = true := by
    unfold pyStartsWith
    rw [mk_data]
    have hshape : obsBodyData o = ("- " : String).data ++
        (obsSpeciesData o ++ (" observed at " : String).data ++ obsLocData o ++
          (" on " : String).data ++ obsDateData o) := by
      unfold obsBodyData
      simp [List.append_assoc]
    rw [hshape]
    exact isPfxOf_refl_append _ _
  have h2 : pyIn "observed at" (String.mk (obsBodyData o)) = true := by
    unfold pyIn
    rw [mk_data, obsBodyData_decomp]
    exact lsubstr_append_mid _ _ _
  rw [h1, h2]
  rfl

theorem specObsLine_data (o : Obs) : (specObsLine o).data = obsBodyData o ++ ['\n'] := by
  unfold specObsLine obsBodyData obsSpeciesData obsLocData obsDateData
  have hnl : ("\n" : String).data = ['\n'] := by decide
  simp [String.data_append, List.append_assoc, hnl]

theorem nl_not_in_body {o : Obs} (h : cleanObsB o = true) : '\n' ∉ obsBodyData o := by
  obtain ⟨h1, _, _, _, _, h6, _, h8, _⟩ := cleanObs_parts h
  unfold obsBodyData
  intro hmem
  simp only [List.mem_append] at hmem
  rcases hmem with ((((hm | hm) | hm) | hm) | hm) | hm
  · exact absurd hm (by decide)
  · exact h1 hm
  · exact absurd hm (by decide)
  · exact h6 hm
  · exact absurd hm (by decide)
  · exact h8 hm

theorem context_lines (obs : List Obs) (hclean : ∀ o ∈ obs.take 5, cleanObsB o = true) :
    lsplit ['\n'] (build_context [] obs).data =
      ("Knowledge Base Information:" : String).data :: [] ::
        ("Recent Observations:" : String).data ::
        ((obs.take 5).map obsBodyData ++ [[]]) := by
  have hdata : (build_context [] obs).data =
      ("Knowledge Base Information:" : String).data ++ '\n' ::
        ('\n' :: (("Recent Observations:" : String).data ++ '\n' ::
          (((obs.take 5).map obsBodyData).map (fun l => l ++ ['\n'])).flatten)) := by
    have he := congrArg String.data (build_context_eq [] obs)
    rw [String.data_append, String.data_append, String.data_append] at he
    rw [strJoin_data, strJoin_data] at he
    have hmm : (((obs.take 5).map specObsLine).map String.data) =
        ((obs.take 5).map obsBodyData).map (fun l => l ++ ['\n']) := by
      rw [List.map_map, List.map_map]
      apply List.map_congr_left
      intro o _
      exact specObsLine_data o
    rw [hmm] at he
    have h1 : ("Knowledge Base Information:\n" : String).data =
        ("Knowledge Base Information:" : String).data ++ ['\n'] := by decide
    have h2 : ("\nRecent Observations:\n" : String).data =
        '\n' :: (("Recent Observations:" : String).data ++ ['\n']) := by decide
    rw [h1, h2] at he
    rw [he]
    simp [List.append_assoc]
  rw [hdata]
  rw [lsplit_char (by decide)]
  have hx2 : ('\n' :: (("Recent Observations:" : String).data ++ '\n' ::
      (((obs.take 5).map obsBodyData).map (fun l => l ++ ['\n'])).flatten)) =
      [] ++ '\n' :: (("Recent Observations:" : String).data ++ '\n' ::
        (((obs.take 5).map obsBodyData).map (fun l => l ++ ['\n'])).flatten) := rfl
  rw [hx2, lsplit_char (by decide), lsplit_char (by decide)]
  rw [lsplit_char_flatten ((obs.take 5).map obsBodyData)]
  intro l hl
  obtain ⟨o, ho, rfl⟩ := List.mem_map.mp hl
  exact nl_not_in_body (hclean o ho)

/-- C10 counterexample: a species name with a trailing space ("Barn Owl ")
contains neither "observed at" nor "- ", yet the round-trip recovers the
stripped "Barn Owl" rather than the species_name exactly, because the
parser strips each recovered entry. -/
theorem claim_C10_counterexample :
    lsubstr ("observed at" : String).data ("Barn Owl " : String).data = false ∧
    lsubstr ("- " : String).data ("Barn Owl " : String).data = false ∧
    (parseContext (build_context []
      [{ species_name := some "Barn Owl ", location := some "Rawal Lake",
         date_observed := some "2024-01-02" }])).1 = ["Barn Owl"] ∧
    ("Barn Owl" : String) ≠ "Barn Owl " := by
  refine ⟨by decide, by decide, by decide, by decide⟩

/-- C10 (amended): over clean rendered fields (no newline, no embedded
"observed at"; species additionally free of "- ", not ending in "-", and
already stripped), the fallback re-parse of build_context's output
recovers each of the first five species names exactly, and recovers as
location exactly the stripped text strictly before the first occurrence
of the substring "on" in the segment after "observed at" - so a location
containing "on" anywhere (such as "Front Lake") is silently truncated. -/
theorem claim_C10_amended (obs : List Obs)
    (hclean : ∀ o ∈ obs.take 5, cleanObsB o = true) :
    parseContext (build_context [] obs) =
      ((obs.take 5).map (fun o => o.species_name.getD "Unknown species"),
       (obs.take 5).map (fun o =>
         locBeforeOn (o.location.getD "Unknown location")
           (o.date_observed.getD "Unknown date"))) := by
  unfold parseContext
  have hlines : pySplit (build_context [] obs) "\n" =
      (("Knowledge Base Information:" : String).data :: [] ::
        ("Recent Observations:" : String).data ::
        ((obs.take 5).map obsBodyData ++ [[]])).map String.mk := by
    unfold pySplit
    have hnl : ("\n" : String).data = ['\n'] := by decide
    rw [hnl, context_lines obs hclean]
  rw [hlines]
  dsimp only
  rw [List.filter_map]
  have hfilter : ((("Knowledge Base Information:" : String).data :: [] ::
      ("Recent Observations:" : String).data ::
      ((obs.take 5).map obsBodyData ++ [[]])).filter
        ((fun line => pyStartsWith line "- " && pyIn "observed at" line) ∘ String.mk)) =
      (obs.take 5).map obsBodyData := by
    rw [List.filter_cons_of_neg (by decide), List.filter_cons_of_neg (by decide),
      List.filter_cons_of_neg (by decide), List.filter_append]
    rw [List.filter_eq_self.mpr]
    · rw [show (([[]] : List (List Char)).filter
        ((fun line => pyStartsWith line "- " && pyIn "observed at" line) ∘ String.mk)) =
          [] from by decide]
      simp
    · intro b hb
      obtain ⟨o, _, rfl⟩ := List.mem_map.mp hb
      exact body_good o
  rw [hfilter]
  rw [List.map_map, List.map_map, List.map_map]
  rw [Prod.mk.injEq]
  constructor
  · apply List.map_congr_left
    intro o ho
    exact parse_line_species o (hclean o ho)
  · rw [List.map_map]
    apply List.map_congr_left
    intro o ho
    exact parse_line_loc o (hclean o ho)

/-- C10 witness: one clean observation at "Front Lake" round-trips its
species name exactly while the recovered location is truncated to "Fr"
at the first occurrence of the substring "on". -/
theorem claim_C10_amended_witness :
    (∀ o ∈ (([{ species_name := some "Mallard Duck", location := some "Front Lake",
                date_observed := some "2024-05-01" }] : List Obs).take 5),
      cleanObsB o = true) ∧
    parseContext (build_context []
      [{ species_name := some "Mallard Duck", location := some "Front Lake",
         date_observed := some "2024-05-01" }]) = (["Mallard Duck"], ["Fr"]) := by
  constructor
  · decide
  · rw [claim_C10_amended _ (by decide)]
    decide
